import Mathlib

/-!
Verification development for the CLI entry adapter of the FBX-to-glTF
converter (`src/Cli/ReadCliArgs.cpp`).  The non-Windows branch of the
argument-encoding normalizer `getCommandLineArgsU8` and the control flow
of `beecli::readCliArgs` are embedded directly from the source.  The
`CliArgs`/`ConvertOptions` record declarations live in `ReadCliArgs.h`,
which is not among the provided sources, and the option-matching
semantics live in the external `clipp` library; those two pieces are
modelled from the specification (its §3 data model and §4.2 schema
table and parsing contract).
-/

/-- Modelled from the spec: the `ConvertOptions` record declared in
`ReadCliArgs.h` (not among the provided sources).  Spec §3:
`noFlipV : bool` defaulting to `false`, and two numeric fields
(`animationBakeRate`, `suspectedAnimationDurationLimit`) whose default
is "unset/library default", modelled as `Option Nat` defaulting to
`none` (the spec calls them "numeric" and exercises them only at
integer values such as `30`). -/
structure ConvertOptions where
  noFlipV : Bool := false
  animationBakeRate : Option Nat := none
  suspectedAnimationDurationLimit : Option Nat := none
  deriving Repr, DecidableEq

/-- Modelled from the spec: the `CliArgs` record declared in
`ReadCliArgs.h` (not among the provided sources).  Spec §3:
`inputFile` required text, `outFile` and `fbmDir` optional text,
plus the nested `convertOptions` record.  A freshly constructed
`CliArgs` (the `CliArgs cliArgs;` local of `readCliArgs`) has an empty
input file, absent optional fields and default convert options. -/
structure CliArgs where
  inputFile : String := ""
  outFile : Option String := none
  fbmDir : Option String := none
  convertOptions : ConvertOptions := {}
  deriving Repr, DecidableEq

/-- The freshly default-constructed `CliArgs cliArgs;` local at the top
of `beecli::readCliArgs`. -/
def defaultCliArgs : CliArgs := {}

/-- Embedding of the non-Windows branch of `getCommandLineArgsU8`
(ReadCliArgs.cpp lines 54-62): allocate a vector of `argc_` strings and
copy `argv_[i]` into slot `i` unchanged ("for now we just trust they
have already been UTF-8"), then return it inside a present optional.
The raw argument vector is a `List String` and the element count is
`argc`; the copy of the first `argc` elements is `List.take argc`. -/
def getCommandLineArgsU8 (argc : Nat) (argv : List String) :
    Option (List String) :=
  some (argv.take argc)

/-- Modelled from the spec: the usage/help text that
`clipp::make_man_page(cli, progName)` renders.  Spec §4.2 step 4: the
text is "derived from the schema and the program name (empty string if
unavailable)".  Its exact wording is irrelevant to the claims; what
matters is that it is a function of the program name and lists the
schema tokens. -/
def makeManPage (progName : String) : String :=
  "SYNOPSIS " ++ progName ++
    " <input file> [--out] [--fbm-dir] [--no-flip-v]" ++
    " [--animation-bake-rate] [--suspected-animation-duration-limit]"

/-- Modelled from the spec: the numeric-value parse applied by the
parsing library to the token following `--animation-bake-rate` or
`--suspected-animation-duration-limit` (spec §4.2: both are "numeric"
value options, exercised at integer values such as `30`; a malformed
value is a parse failure).  A token parses iff it is a non-empty run of
decimal digits, read in base ten. -/
def parseNatToken (s : String) : Option Nat :=
  if s.data ≠ [] ∧ s.data.all (fun c => 48 ≤ c.toNat ∧ c.toNat ≤ 57) then
    some (s.data.foldl (fun acc c => acc * 10 + (c.toNat - 48)) 0)
  else none

/-- A token shaped like a named option: its first two characters are
dashes.  Used by the modelled parser to classify a token that matches
no schema entry as an unknown option rather than as the positional
input file. -/
def looksLikeOption (s : String) : Bool :=
  match s.data with
  | c1 :: c2 :: _ => c1 = '-' && c2 = '-'
  | _ => false

/-- Modelled from the spec: the `clipp` option schema declared in
`readCliArgs` (ReadCliArgs.cpp lines 68-93) and the matching semantics
of `clipp::parse` over the pre-sliced range, following the spec §4.2
schema table and parsing contract: one required positional bound to
`inputFile`; `--out` and `--fbm-dir` are value options binding the
following token to `outFile`/`fbmDir`; `--no-flip-v` is a flag setting
`convertOptions.noFlipV` to `true`; `--animation-bake-rate` and
`--suspected-animation-duration-limit` are numeric value options
binding the following token.  Missing required positional, unknown
tokens and malformed numeric values are parse failures.  The parser
threads the in-place-mutated `cliArgs` record and whether the required
positional has been matched. -/
def parseArgs (args : List String) (cliArgs : CliArgs) (inputSeen : Bool) :
    Option CliArgs :=
  match args with
  | [] => if inputSeen then some cliArgs else none
  | tok :: rest =>
    if tok = "--no-flip-v" then
      parseArgs rest
        { cliArgs with
          convertOptions := { cliArgs.convertOptions with noFlipV := true } }
        inputSeen
    else if tok = "--out" then
      match rest with
      | [] => none
      | v :: rest2 => parseArgs rest2 { cliArgs with outFile := some v } inputSeen
    else if tok = "--fbm-dir" then
      match rest with
      | [] => none
      | v :: rest2 => parseArgs rest2 { cliArgs with fbmDir := some v } inputSeen
    else if tok = "--animation-bake-rate" then
      match rest with
      | [] => none
      | v :: rest2 =>
        match parseNatToken v with
        | none => none
        | some n =>
          parseArgs rest2
            { cliArgs with
              convertOptions :=
                { cliArgs.convertOptions with animationBakeRate := some n } }
            inputSeen
    else if tok = "--suspected-animation-duration-limit" then
      match rest with
      | [] => none
      | v :: rest2 =>
        match parseNatToken v with
        | none => none
        | some n =>
          parseArgs rest2
            { cliArgs with
              convertOptions :=
                { cliArgs.convertOptions with
                  suspectedAnimationDurationLimit := some n } }
            inputSeen
    else if looksLikeOption tok then none
    else if inputSeen then none
    else parseArgs rest { cliArgs with inputFile := tok } true
termination_by structural args

/-- Observable outcome of one `readCliArgs` invocation: the returned
optional `CliArgs`, plus the text written to the standard output and
standard error streams. -/
structure CliOutcome where
  result : Option CliArgs
  stdoutText : List String
  stderrText : List String
  deriving Repr, DecidableEq

/-- Embedding of the tail of `beecli::readCliArgs` (ReadCliArgs.cpp
lines 95-111), starting from the already computed
`commandLineArgsU8` optional vector: if the normalizer failed, return
an absent result at once (nothing printed); otherwise, if the vector is
empty or parsing the range after element 0 fails against the schema,
print the man page to standard output (program name is `front()` when
non-empty, `""` otherwise) and return an absent result; on success
return the populated `cliArgs`.  The short-circuiting `||` of the
source is rendered by matching the empty vector before touching
`begin() + 1` or `front()`. -/
def readCliArgsFrom (commandLineArgsU8 : Option (List String)) : CliOutcome :=
  match commandLineArgsU8 with
  | none => { result := none, stdoutText := [], stderrText := [] }
  | some u8 =>
    match u8 with
    | [] =>
      { result := none, stdoutText := [makeManPage ("")], stderrText := [] }
    | prog :: rest =>
      match parseArgs rest defaultCliArgs false with
      | none =>
        { result := none, stdoutText := [makeManPage prog], stderrText := [] }
      | some cliArgs =>
        { result := some cliArgs, stdoutText := [], stderrText := [] }

/-- Embedding of `beecli::readCliArgs` (ReadCliArgs.cpp lines 66-112)
on the non-Windows path: normalize the raw arguments with
`getCommandLineArgsU8`, then run the parse/usage branch. -/
def readCliArgs (argc : Nat) (argv : List String) : CliOutcome :=
  readCliArgsFrom (getCommandLineArgsU8 argc argv)

/-- An argument string made only of ASCII characters. -/
def allAscii (s : String) : Bool :=
  s.data.all (fun c => c.toNat < 128)

/-- Helper for C9: whenever the modelled parser succeeds, the resulting
input file is one of the parsed tokens, unless the positional had
already been matched before this call (in which case it may be the
input file of the accumulator). -/
theorem parseArgs_inputFile_mem :
    ∀ (n : Nat) (args : List String) (cliArgs : CliArgs) (inputSeen : Bool)
      (r : CliArgs), args.length ≤ n →
      parseArgs args cliArgs inputSeen = some r →
      r.inputFile ∈ args ∨ (inputSeen = true ∧ r.inputFile = cliArgs.inputFile) := by
  intro n
  induction n with
  | zero =>
    intro args cliArgs inputSeen r hlen h
    have hargs : args = [] := List.length_eq_zero.mp (Nat.le_zero.mp hlen)
    subst hargs
    rw [parseArgs.eq_def] at h
    dsimp only at h
    split at h
    · exact Or.inr ⟨by assumption, by injection h with h2; rw [h2]⟩
    · exact absurd h (by simp)
  | succ n ih =>
    intro args cliArgs inputSeen r hlen h
    cases args with
    | nil =>
      rw [parseArgs.eq_def] at h
      dsimp only at h
      split at h
      · exact Or.inr ⟨by assumption, by injection h with h2; rw [h2]⟩
      · exact absurd h (by simp)
    | cons tok rest =>
      rw [parseArgs.eq_def] at h
      dsimp only at h
      simp only [List.length_cons, Nat.succ_le_succ_iff] at hlen
      repeat' split at h
      all_goals
        first
          | exact absurd h (by simp)
          | (rcases ih _ _ _ r
                (by first
                      | exact hlen
                      | (simp only [List.length_cons] at hlen ⊢; omega)) h with
              hmem | ⟨hs, he⟩
             · exact Or.inl (by simp [hmem])
             · first
                 | exact Or.inr ⟨hs, he⟩
                 | exact Or.inl (by simp [he]))

/-- C1: for the argument vector `["prog", "model.fbx"]`, `readCliArgs`
returns a present result whose `inputFile` is `"model.fbx"`, whose
`outFile` and `fbmDir` are absent, and whose `convertOptions` holds the
default values (`noFlipV = false`, bake rate and suspected duration
limit unset); nothing is printed. -/
theorem readCliArgs_positional_only :
    readCliArgs 2 ["prog", "model.fbx"] =
      { result := some (CliArgs.mk ("model.fbx") none none
          (ConvertOptions.mk false none none)),
        stdoutText := [], stderrText := [] } := by decide

/-- C2: for the argument vector
`["prog", "model.fbx", "--animation-bake-rate", "30"]`, `readCliArgs`
returns a present result with `convertOptions.animationBakeRate = 30`:
the token following the option is consumed as its numeric value. -/
theorem readCliArgs_animationBakeRate :
    (readCliArgs 4 ["prog", "model.fbx", "--animation-bake-rate", "30"]).result =
      some (CliArgs.mk ("model.fbx") none none
        (ConvertOptions.mk false (some 30) none)) := by decide

/-- C3: for the argument vector `["prog", "model.fbx", "--no-flip-v"]`,
`readCliArgs` returns a present result with
`convertOptions.noFlipV = true`; when the flag is absent the field
stays at its default `false`. -/
theorem readCliArgs_noFlipV :
    (readCliArgs 3 ["prog", "model.fbx", "--no-flip-v"]).result =
      some (CliArgs.mk ("model.fbx") none none
        (ConvertOptions.mk true none none)) ∧
    (readCliArgs 2 ["prog", "model.fbx"]).result.map
        (fun r => r.convertOptions.noFlipV) = some false := by decide

/-- C4: on the non-Windows path, normalizing a raw argument vector of
`N` elements yields a present vector of exactly `N` text values whose
element 0 is the raw element 0 (the program path/name). -/
theorem getCommandLineArgsU8_length_preserving (argv : List String) :
    ∃ u8, getCommandLineArgsU8 argv.length argv = some u8 ∧
      u8.length = argv.length ∧ u8.head? = argv.head? :=
  ⟨argv, by simp [getCommandLineArgsU8], rfl, rfl⟩

/-- C5: on the non-Windows path, an argument consisting only of ASCII
characters is returned byte-for-byte unchanged at the same index by
the normalizer. -/
theorem getCommandLineArgsU8_ascii_identity (argv : List String) (i : Nat)
    (h : i < argv.length) (hA : allAscii argv[i] = true) :
    ∃ u8, getCommandLineArgsU8 argv.length argv = some u8 ∧
      u8[i]? = some argv[i] :=
  ⟨argv, by simp [getCommandLineArgsU8], by
    simp [List.getElem?_eq_getElem h]⟩

/-- Witness for C5 at `argv = ["prog", "model.fbx"]`, `i = 1`. -/
theorem getCommandLineArgsU8_ascii_identity_witness :
    allAscii ("model.fbx") = true ∧
    ∃ u8, getCommandLineArgsU8 (["prog", "model.fbx"] : List String).length
        ["prog", "model.fbx"] = some u8 ∧ u8[1]? = some ("model.fbx") :=
  ⟨by decide,
    getCommandLineArgsU8_ascii_identity ["prog", "model.fbx"] 1 (by decide)
      (by decide)⟩

/-- C6: for the argument vector `["prog"]` (program name only, no
positional input file), `readCliArgs` returns an absent result and the
usage text derived from the schema and the program name is written to
standard output, with nothing on standard error. -/
theorem readCliArgs_missing_positional :
    readCliArgs 1 ["prog"] =
      { result := none, stdoutText := [makeManPage ("prog")],
        stderrText := [] } := by decide

/-- C7: for the empty normalized argument vector, `readCliArgs` returns
an absent result (the emptiness test short-circuits: the model reaches
this outcome in the branch that never slices past element 0), and the
usage text is rendered with the empty string as the program name. -/
theorem readCliArgs_empty_vector :
    readCliArgsFrom (some []) =
      { result := none, stdoutText := [makeManPage ("")], stderrText := [] } ∧
    readCliArgs 0 [] =
      { result := none, stdoutText := [makeManPage ("")], stderrText := [] } := by
  exact ⟨rfl, rfl⟩

/-- C8: when the normalizer fails (absent vector), `readCliArgs`
returns an absent result without parsing and prints nothing; moreover
for a present vector, usage text appears only when the vector is empty
or the schema match over the tail fails. -/
theorem readCliArgs_normalizer_failure :
    readCliArgsFrom none =
      { result := none, stdoutText := [], stderrText := [] } ∧
    ∀ u8 : List String, (readCliArgsFrom (some u8)).stdoutText = [] ∨
      u8 = [] ∨ parseArgs u8.tail defaultCliArgs false = none := by
  refine ⟨rfl, fun u8 => ?_⟩
  cases u8 with
  | nil => exact Or.inr (Or.inl rfl)
  | cons prog rest =>
    cases hp : parseArgs rest defaultCliArgs false with
    | none => exact Or.inr (Or.inr hp)
    | some r => simp [readCliArgsFrom, hp]

/-- C9: element 0 of the normalized vector is excluded before matching,
so whenever `readCliArgs` returns a present result its `inputFile` is
one of the elements 1..n of the normalized vector — the program name
slot never leaks into `inputFile`. -/
theorem readCliArgs_inputFile_from_tail (argc : Nat) (argv : List String)
    (r : CliArgs) (h : (readCliArgs argc argv).result = some r) :
    r.inputFile ∈ (argv.take argc).drop 1 := by
  have hrw : readCliArgs argc argv = readCliArgsFrom (some (argv.take argc)) :=
    rfl
  rw [hrw] at h
  cases htake : argv.take argc with
  | nil => rw [htake] at h; simp [readCliArgsFrom] at h
  | cons prog rest =>
    rw [htake] at h
    simp only [readCliArgsFrom] at h
    cases hp : parseArgs rest defaultCliArgs false with
    | none => rw [hp] at h; simp at h
    | some r2 =>
      rw [hp] at h
      simp only [Option.some.injEq] at h
      rcases parseArgs_inputFile_mem rest.length rest defaultCliArgs false r2
          (Nat.le_refl _) hp with hmem | ⟨hfalse, _⟩
      · rw [← h]; simpa using hmem
      · exact absurd hfalse (by simp)

/-- Witness for C9 at `argc = 2`, `argv = ["prog", "model.fbx"]`. -/
theorem readCliArgs_inputFile_from_tail_witness :
    (readCliArgs 2 ["prog", "model.fbx"]).result =
      some { inputFile := "model.fbx" } ∧
    "model.fbx" ∈ ((["prog", "model.fbx"] : List String).take 2).drop 1 :=
  ⟨by decide,
    readCliArgs_inputFile_from_tail 2 ["prog", "model.fbx"]
      { inputFile := "model.fbx" } (by decide)⟩

/-- C10: `readCliArgs` is deterministic on the non-Windows path: two
invocations on the same `argc`/`argv` produce the same outcome —
same present/absent result, field-for-field equal `CliArgs`, and the
same text on both streams. -/
theorem readCliArgs_deterministic (argc : Nat) (argv : List String)
    (o1 o2 : CliOutcome) (h1 : readCliArgs argc argv = o1)
    (h2 : readCliArgs argc argv = o2) : o1 = o2 :=
  h1 ▸ h2 ▸ rfl

/-- Witness for C10 at `argc = 2`, `argv = ["prog", "model.fbx"]`. -/
theorem readCliArgs_deterministic_witness :
    ({ result := some { inputFile := "model.fbx" }, stdoutText := [],
       stderrText := [] } : CliOutcome) =
      { result := some { inputFile := "model.fbx" }, stdoutText := [],
        stderrText := [] } :=
  readCliArgs_deterministic 2 ["prog", "model.fbx"]
    { result := some { inputFile := "model.fbx" }, stdoutText := [],
      stderrText := [] }
    { result := some { inputFile := "model.fbx" }, stdoutText := [],
      stderrText := [] }
    (by decide) (by decide)
